import Mathlib

/-!
Verification of the koa bunyan logging middleware (src/index.js).

The development shallowly embeds the three core components:
* `updateFields` (src/index.js lines 196-209): the hook runner;
* `requestLogger` (lines 99-194): request/response lifecycle logging,
  embedded as `requestLoggerRun`, which returns the ordered trace of
  observable events of one request together with the middleware outcome;
* `timeContext` (lines 224-271): the labeled timer, embedded as
  `timeOp` / `timeEndOp` acting on the per-request start-time table.

JavaScript values are modelled by the inductive `Val`; objects that the
middleware treats opaquely (req, res, thrown error objects) are `vObj`
with a tag.  Field maps (plain JS objects used as log-record data) are
association lists `Fields`, with `getF` / `setF` / `delF` mirroring JS
property read / assignment / delete.  A user hook receives the data
object, may mutate it in place and may return a replacement object or
throw; this is `Hook` / `HookResult`.  A hook returning a JS object is
always truthy (even `{}`), so the returned value in the model is either
a replacement field map or "falsy / no value".  Machine time
(`Date.getTime()` milliseconds) is an `Int`, supplied as an explicit
parameter wherever the code reads the clock.
-/

set_option autoImplicit false

/-- JavaScript values as far as the middleware distinguishes them. -/
inductive Val where
  | vNum (n : Int)
  | vStr (s : String)
  | vBool (b : Bool)
  | vNull
  | vUndefined
  | vObj (tag : Nat)
  | vTypeError
  deriving DecidableEq, Repr

/-- JS truthiness of a `Val` (NaN aside, which the middleware never produces). -/
def Val.truthy : Val → Bool
  | .vNum n => n != 0
  | .vStr s => s ≠ ""
  | .vBool b => b
  | .vNull => false
  | .vUndefined => false
  | .vObj _ => true
  | .vTypeError => true

/-- Bunyan severity levels. -/
inductive Level where
  | trace | debug | info | warn | error | fatal
  deriving DecidableEq, Repr

/-- What a single log call carried: a plain (formatted) message, a bare
error value (`log.error(e)`), or a field object with an optional
separate message argument. -/
inductive Body where
  | msg (s : String)
  | err (e : Val)
  | fields (f : List (String × Val)) (m : Option String)
  deriving DecidableEq, Repr

/-- One emitted log record: severity plus payload. -/
structure Record where
  level : Level
  body : Body
  deriving DecidableEq, Repr

/-- A JS object used as a log-field map: association list keyed by
property name.  JS objects have no duplicate keys; `setF` preserves
that shape. -/
abbrev Fields := List (String × Val)

/-- Property read `d[k]`: `none` models `undefined` (key absent). -/
def getF {α : Type} : List (String × α) → String → Option α
  | [], _ => none
  | (k', v) :: rest, k => if k = k' then some v else getF rest k

/-- Property assignment `d[k] = v`: overwrite in place if present,
else append. -/
def setF {α : Type} : List (String × α) → String → α → List (String × α)
  | [], k, v => [(k, v)]
  | (k', v') :: rest, k, v =>
    if k = k' then (k, v) :: rest else (k', v') :: setF rest k v

/-- Property removal `delete d[k]`. -/
def delF {α : Type} : List (String × α) → String → List (String × α)
  | [], _ => []
  | (k', v) :: rest, k => if k' = k then delF rest k else (k', v) :: delF rest k

/-- What a hook call does: either it returns, leaving the data object
in state `mutated` and producing `retVal` (`some f` = it returned the
object `f`, which is truthy in JS; `none` = it returned `undefined` or
another falsy value), or it throws the value `e`.  A hook that throws
is modelled as not having mutated the data first. -/
inductive HookResult where
  | ret (mutated : Fields) (retVal : Option Fields)
  | thrown (e : Val)

/-- A user-supplied enrichment hook.  The second argument models the
optional `err` parameter: `some e` when the call site passed a (truthy)
error, `none` when the hook was called with the data only. -/
structure Hook where
  run : Fields → Option Val → HookResult

/-- The error argument a hook receives: `updateFields` only forwards
`err` when it is truthy (`if (err) ... func.call(ctx, data, err)`). -/
def argOf (e : Val) : Option Val :=
  if e.truthy then some e else none

/-- Shallow embedding of `updateFields(ctx, func, data, err)`
(src/index.js lines 196-209).  `hasLog` says whether the `ctx` passed
at the call site has a usable `.log` (the real koa context does; the
`this` passed in the request phase of `requestLogger` is `undefined`
under koa ≥ 2, hence `hasLog = false` there).  On a hook throw the
catch clause runs `ctx.log.error(e)`: with a logger this emits one
error-level record and the original data is returned; without one the
property access itself throws a `TypeError`, which propagates. -/
def updateFields (hasLog : Bool) (func : Option Hook) (data : Fields) (err : Val) :
    Except Val (Fields × List Record) :=
  match func with
  | none => .ok (data, [])
  | some f =>
    match f.run data (argOf err) with
    | .ret m none => .ok (m, [])
    | .ret _ (some repl) => .ok (repl, [])
    | .thrown e =>
      if hasLog then .ok (data, [⟨Level.error, Body.err e⟩])
      else .error Val.vTypeError

/-- `updateFields` at a call site whose context has a logger: total. -/
def updateFieldsOk (func : Option Hook) (data : Fields) (err : Val) :
    Fields × List Record :=
  match updateFields true func data err with
  | .ok r => r
  | .error _ => (data, [])

/-- The data `updateFields` hands back when the hook does not throw:
replacement if the hook returned an object, else the mutated data. -/
def applyHookO (func : Option Hook) (data : Fields) (a : Option Val) : Fields :=
  match func with
  | none => data
  | some f =>
    match f.run data a with
    | .ret m none => m
    | .ret _ (some repl) => repl
    | .thrown _ => data

/-- The (optional) hook never throws, whatever data and error argument
it receives. -/
def NonThrowingO : Option Hook → Prop
  | none => True
  | some f => ∀ d a e, f.run d a ≠ .thrown e

theorem updateFields_true_eq_ok (func : Option Hook) (data : Fields) (err : Val) :
    updateFields true func data err = .ok (updateFieldsOk func data err) := by
  cases func with
  | none => rfl
  | some f =>
    simp only [updateFields, updateFieldsOk]
    cases f.run data (argOf err) with
    | ret m r => cases r <;> rfl
    | thrown e => rfl

theorem updateFields_nonThrowing (hl : Bool) (func : Option Hook) (data : Fields)
    (err : Val) (h : NonThrowingO func) :
    updateFields hl func data err = .ok (applyHookO func data (argOf err), []) := by
  cases func with
  | none => rfl
  | some f =>
    simp only [updateFields, applyHookO]
    cases hr : f.run data (argOf err) with
    | ret m r => cases r <;> rfl
    | thrown e => exact absurd hr (h data (argOf err) e)

theorem updateFieldsOk_nonThrowing (func : Option Hook) (data : Fields) (err : Val)
    (h : NonThrowingO func) :
    updateFieldsOk func data err = (applyHookO func data (argOf err), []) := by
  simp only [updateFieldsOk, updateFields_nonThrowing true func data err h]

/-! Association-list lemmas used to reason about hook composition. -/

/-- First-defined choice of two optional values (JS-style fallback). -/
def firstSome {α : Type} : Option α → Option α → Option α
  | some v, _ => some v
  | none, b => b

@[simp] theorem firstSome_some {α : Type} (v : α) (b : Option α) :
    firstSome (some v) b = some v := rfl

@[simp] theorem firstSome_none {α : Type} (b : Option α) :
    firstSome (none : Option α) b = b := rfl

theorem firstSome_assoc {α : Type} (a b c : Option α) :
    firstSome (firstSome a b) c = firstSome a (firstSome b c) := by
  cases a <;> rfl

@[simp] theorem getF_nil {α : Type} (k : String) :
    getF ([] : List (String × α)) k = none := rfl

theorem getF_setF {α : Type} (d : List (String × α)) (k k' : String) (v : α) :
    getF (setF d k v) k' = if k' = k then some v else getF d k' := by
  induction d with
  | nil => simp [setF, getF]
  | cons p rest ih =>
    obtain ⟨a, b⟩ := p
    by_cases hka : k = a
    · subst hka
      by_cases h : k' = k <;> simp [setF, getF, h]
    · by_cases h1 : k' = a
      · have h2 : ¬ k' = k := fun hk => hka (hk ▸ h1)
        have h3 : ¬ a = k := fun h => hka h.symm
        simp [setF, getF, hka, h1, h2, h3]
      · simp [setF, getF, hka, h1, ih]

theorem getF_delF {α : Type} (d : List (String × α)) (k k' : String) :
    getF (delF d k) k' = if k' = k then none else getF d k' := by
  induction d with
  | nil => simp [delF, getF]
  | cons p rest ih =>
    obtain ⟨a, b⟩ := p
    by_cases hak : a = k
    · subst hak
      by_cases h : k' = a
      · subst h
        simp [delF, getF, ih]
      · simp [delF, getF, ih, h]
    · by_cases h1 : k' = a
      · have h2 : ¬ k' = k := fun hk => hak (h1 ▸ hk)
        simp [delF, getF, hak, h1, h2]
      · simp [delF, getF, hak, h1, ih]

theorem getF_append {α : Type} (l₁ l₂ : List (String × α)) (k : String) :
    getF (l₁ ++ l₂) k = firstSome (getF l₁ k) (getF l₂ k) := by
  induction l₁ with
  | nil => simp [getF]
  | cons p rest ih =>
    obtain ⟨a, b⟩ := p
    by_cases hka : k = a
    · subst hka
      simp [getF]
    · simp [getF, hka, ih]

/-- Apply a list of property assignments in order (later wins). -/
def setAll (d : Fields) (ps : List (String × Val)) : Fields :=
  ps.foldl (fun a p => setF a p.1 p.2) d

/-- Apply a list of property deletions in order. -/
def delAll (d : Fields) (ks : List String) : Fields :=
  ks.foldl delF d

theorem getF_setAll (ps : List (String × Val)) (d : Fields) (k : String) :
    getF (setAll d ps) k = firstSome (getF ps.reverse k) (getF d k) := by
  induction ps generalizing d with
  | nil => simp [setAll, getF]
  | cons p rest ih =>
    obtain ⟨a, b⟩ := p
    show getF (setAll (setF d a b) rest) k = _
    rw [ih]
    simp only [List.reverse_cons, getF_append, firstSome_assoc]
    congr 1
    rw [getF_setF]
    by_cases hk : k = a
    · subst hk
      simp [getF]
    · simp [getF, hk]

theorem getF_delAll (ks : List String) (d : Fields) (k : String) :
    getF (delAll d ks) k = if k ∈ ks then none else getF d k := by
  induction ks generalizing d with
  | nil => simp [delAll]
  | cons a rest ih =>
    show getF (delAll (delF d a) rest) k = _
    rw [ih, getF_delF]
    by_cases hmem : k ∈ rest
    · simp [hmem]
    · by_cases hka : k = a
      · subst hka
        simp [hmem]
      · simp [hmem, hka, List.mem_cons]

/-- A deterministic enrichment hook in the style of the repository's own
tests: it mutates the data in place by assigning the pairs in `sets`
(in order) and then deleting the keys in `dels`, and returns no value,
so the mutated object is retained. -/
def mutHook (sets : List (String × Val)) (dels : List String) : Hook :=
  ⟨fun d _ => .ret (delAll (setAll d sets) dels) none⟩

theorem mutHook_nonThrowing (sets : List (String × Val)) (dels : List String) :
    NonThrowingO (some (mutHook sets dels)) := by
  intro d a e h
  simp [mutHook] at h

theorem updateFields_mutHook (hl : Bool) (sets : List (String × Val))
    (dels : List String) (d : Fields) (e : Val) :
    updateFields hl (some (mutHook sets dels)) d e =
      .ok (delAll (setAll d sets) dels, []) := rfl

theorem applyHookO_mutHook (sets : List (String × Val)) (dels : List String)
    (d : Fields) (a : Option Val) :
    applyHookO (some (mutHook sets dels)) d a = delAll (setAll d sets) dels := rfl

/-!
Labeled timer context, src/index.js lines 224-271.

`ctx._timeContextStartTimes` maps a label to the JS value last stored
for it: a `getTime()` number (`some t`) or `null` (`none`), written by
`timeEnd`.  An absent key models `undefined`.  All reads in the source
are truthiness tests, under which `undefined`, `null` and `0` coincide.
-/

/-- The per-request start-time table `ctx._timeContextStartTimes`. -/
abbrev TState := List (String × Option Int)

/-- Truthiness of `startTimes[label]`: present, non-null and non-zero. -/
def entryTruthy : Option (Option Int) → Bool
  | some (some t) => t != 0
  | _ => false

/-- Options of `timeContext`: `logLevel` (`'trace'` when not given) and
the optional enrichment hook. -/
structure TimeOpts where
  logLevel : Option Level
  updateLogFields : Option Hook

/-- `var logLevel = opts.logLevel || 'trace';` (line 227). -/
def TimeOpts.level (o : TimeOpts) : Level :=
  o.logLevel.getD Level.trace

/-- Shallow embedding of `time(ctx, label)` (lines 239-247): warn when
the stored entry is truthy, then store the current time.  Returns the
new table and the records emitted. -/
def timeOp (st : TState) (label : String) (now : Int) : TState × List Record :=
  let warns : List Record :=
    if entryTruthy (getF st label) then
      [⟨Level.warn, Body.msg ("time() called for previously used label " ++ label)⟩]
    else []
  (setF st label (some now), warns)

/-- Shallow embedding of `timeEnd(ctx, label)` (lines 249-270): on a
falsy entry warn and return; otherwise compute the duration, build the
fields, run the enrichment hook through `updateFields` (the koa context
has a logger here), emit at the configured level, and null the entry. -/
def timeEndOp (o : TimeOpts) (st : TState) (label : String) (now : Int) :
    TState × List Record :=
  match getF st label with
  | some (some t) =>
    if t = 0 then
      (st, [⟨Level.warn, Body.msg ("timeEnd() called without time() for label " ++ label)⟩])
    else
      let duration := now - t
      let fields0 : Fields :=
        [("label", Val.vStr label), ("duration", Val.vNum duration),
         ("msg", Val.vStr (label ++ ": " ++ toString duration ++ "ms"))]
      let fr := updateFieldsOk o.updateLogFields fields0 Val.vUndefined
      (setF st label none, fr.2 ++ [⟨o.level, Body.fields fr.1 none⟩])
  | _ =>
    (st, [⟨Level.warn, Body.msg ("timeEnd() called without time() for label " ++ label)⟩])

/-!
Request/response lifecycle logger, src/index.js lines 99-194.

`requestLoggerRun` is the observable behaviour of one request through
the `requestLogger` middleware: the ordered trace of events (records
emitted at each of the three distinct emission sites, plus markers for
the handler chain finishing, the registration of the `onFinished`
callback, and the transport finish signal), the middleware's outcome
towards its caller, and whether `ctx.log` was cleared.

Modelling notes, all reflecting the source:
* the two request-phase hook calls pass `this` as the hook runner's
  context (lines 144-145); `thisHasLog` says whether that value has a
  usable `.log` — under koa ≥ 2 middleware is invoked with
  `this === undefined`, i.e. `thisHasLog = false`;
* the response-phase calls pass `ctx` (lines 164-170), which has a
  logger, so they never let a hook exception escape;
* `onFinished` is registered in the `finally` block and — per the
  contract of the transport finish signal — invokes the callback
  exactly once, after registration; the model places the `finished`
  marker and the completion records there.  The rethrow decision
  (`if (err) throw err`, lines 190-192) is taken independently of when
  the callback fires, so `outcome` does not depend on that timing;
* the clock readings are the parameters `t0` (line 149) and `t1`
  (line 162);
* the custom `formatRequestMessage` / `formatResponseMessage` options
  are not modelled; the defaults (lines 117-137) are.
-/

/-- The koa context data the middleware reads: the raw request and
response descriptors, the request method and url, and the response
status as it stands when the response finishes. -/
structure ReqCtx where
  req : Val
  res : Val
  method : String
  url : String
  status : Int

/-- The `requestLogger` options that the claims exercise.  A `none`
means the option was not supplied and the source default applies. -/
structure Opts where
  updateLogFields : Option Hook
  updateRequestLogFields : Option Hook
  updateResponseLogFields : Option Hook
  durationField : Option String
  levelFn : Option (Int → Val → Level)

/-- `var durationField = opts.durationField || 'duration';` (line 115). -/
def Opts.durField (o : Opts) : String :=
  o.durationField.getD "duration"

/-- `levelFn(ctx, err)` (lines 102-113): the default maps the response
status to a severity and ignores the error. -/
def levelOf (o : Opts) (status : Int) (err : Val) : Level :=
  match o.levelFn with
  | some f => f status err
  | none =>
    if 500 ≤ status then Level.error
    else if 400 ≤ status then Level.warn
    else Level.info

/-- How `util.format('%s', v)` renders the values our model covers. -/
def Val.show : Val → String
  | .vNum n => toString n
  | .vStr s => s
  | .vBool b => if b then "true" else "false"
  | .vNull => "null"
  | .vUndefined => "undefined"
  | .vObj _ => "[object Object]"
  | .vTypeError => "TypeError"

/-- Default `formatRequestMessage` (lines 117-125). -/
def fmtRequest (ctx : ReqCtx) : String :=
  "  <-- " ++ ctx.method ++ " " ++ ctx.url

/-- Default `formatResponseMessage` (lines 127-137): note it reads
`data[durationField]` from the post-hook response data. -/
def fmtResponse (o : Opts) (ctx : ReqCtx) (data : Fields) : String :=
  "  --> " ++ ctx.method ++ " " ++ ctx.url ++ " " ++ toString ctx.status ++ " "
    ++ (match getF data o.durField with
        | some v => v.show
        | none => "undefined") ++ "ms"

/-- The request-phase data pipeline (lines 140-145): base `{req}`, then
the global hook, then the request-specific hook, both run with `this`
as context.  Produces the data for the request record and the records
the hook runner emitted, or the exception that escaped. -/
def requestPhaseData (o : Opts) (thisHasLog : Bool) (ctx : ReqCtx) :
    Except Val (Fields × List Record) :=
  match updateFields thisHasLog o.updateLogFields [("req", ctx.req)] Val.vUndefined with
  | .error e => .error e
  | .ok (d1, r1) =>
    match updateFields thisHasLog o.updateRequestLogFields d1 Val.vUndefined with
    | .error e => .error e
    | .ok (d2, r2) => .ok (d2, r1 ++ r2)

/-- The `onResponseFinished` callback (lines 152-178): builds
`{req, res, err?, duration}`, runs the global then the response hook
with the captured error, and emits the completion record at the level
`levelFn` chooses.  Returns the hook-runner records and the completion
record. -/
def onResponseFinished (o : Opts) (ctx : ReqCtx) (err : Val) (t0 t1 : Int) :
    List Record × Record :=
  let d0 : Fields := [("req", ctx.req), ("res", ctx.res)]
  let d1 : Fields := if err.truthy then setF d0 "err" err else d0
  let d2 : Fields := setF d1 o.durField (Val.vNum (t1 - t0))
  let fr3 := updateFieldsOk o.updateLogFields d2 Val.vUndefined
  let fr4 := updateFieldsOk o.updateResponseLogFields fr3.1 err
  (fr3.2 ++ fr4.2,
   ⟨levelOf o ctx.status err, Body.fields fr4.1 (some (fmtResponse o ctx fr4.1))⟩)

/-- One observable event of a request's lifetime, tagged by the
emission site in the source. -/
inductive Event where
  | hookErr (r : Record)
  | reqRec (r : Record)
  | handlerRan
  | registered
  | finished
  | compRec (r : Record)
  deriving DecidableEq, Repr

/-- Observable result of running the middleware on one request. -/
structure RunOut where
  trace : List Event
  outcome : Except Val Unit
  logCleared : Bool
  deriving Repr

/-- Shallow embedding of one request through `requestLogger`
(lines 139-193).  `handler` is the outcome of `await next()`; `t0` and
`t1` are the clock readings at lines 149 and 162. -/
def requestLoggerRun (o : Opts) (thisHasLog : Bool) (ctx : ReqCtx)
    (handler : Except Val Unit) (t0 t1 : Int) : RunOut :=
  match requestPhaseData o thisHasLog ctx with
  | .error e => ⟨[], .error e, false⟩
  | .ok (d2, rs) =>
    let reqR : Record := ⟨Level.info, Body.fields d2 (some (fmtRequest ctx))⟩
    let err : Val :=
      match handler with
      | .ok _ => Val.vUndefined
      | .error e => e
    let fin := onResponseFinished o ctx err t0 t1
    ⟨rs.map Event.hookErr ++
       Event.reqRec reqR :: Event.handlerRan :: Event.registered :: Event.finished ::
         (fin.1.map Event.hookErr ++ [Event.compRec fin.2]),
     if err.truthy then .error err else .ok (),
     true⟩

/-- The fields of the request record in a trace, when one was emitted. -/
def reqRecFields (run : RunOut) : Option Fields :=
  run.trace.findSome? fun e =>
    match e with
    | .reqRec ⟨_, .fields f _⟩ => some f
    | _ => none

/-- The fields of the completion record in a trace, when one was emitted. -/
def compRecFields (run : RunOut) : Option Fields :=
  run.trace.findSome? fun e =>
    match e with
    | .compRec ⟨_, .fields f _⟩ => some f
    | _ => none

/-- Read one field of an optional record-field map. -/
def recField (o : Option Fields) (k : String) : Option Val :=
  match o with
  | none => none
  | some f => getF f k

/-- Number of completion records in a trace. -/
def countComp (t : List Event) : Nat :=
  (t.filter fun e =>
    match e with
    | .compRec _ => true
    | _ => false).length

/-! Concrete inputs used by the claim theorems and witnesses. -/

/-- A hook that always throws (the repository test's `clumsy` hook). -/
def throwingHook : Hook := ⟨fun _ _ => .thrown (Val.vObj 7)⟩

/-- A simple GET / request context. -/
def ctxDemo : ReqCtx := ⟨Val.vObj 1, Val.vObj 2, "GET", "/", 200⟩

/-- `requestLogger({updateRequestLogFields: <throwing hook>})`. -/
def optsC1 : Opts := ⟨none, some throwingHook, none, none, none⟩

/-- `requestLogger()` with no options. -/
def optsPlain : Opts := ⟨none, none, none, none, none⟩

/-- Claim C1: a hook that throws inside the hook runner is logged at
error level via the context's logger, the original data is returned,
and the exception never propagates, in every phase — including the
request phase of `requestLogger`.  The code violates this in the
request phase: lines 144-145 pass `this` (which is `undefined` when koa
≥ 2 invokes the middleware, the file being strict-mode) instead of
`ctx` as the hook runner's context, so the catch clause's
`ctx.log.error(e)` itself throws a `TypeError`.  The first conjunct
evaluates the middleware at that failing input: no record at all is
emitted (the request record is lost), the callback is never registered,
and the `TypeError` propagates to the caller.  The second conjunct
shows the isolation the spec describes does hold at the call sites that
pass the real context (response phase, timer), so the request-phase
call sites are a slip, not a different design: code_bug. -/
theorem hookRunner_request_phase_throw_escapes :
    requestLoggerRun optsC1 false ctxDemo (.ok ()) 0 1 =
      ⟨[], .error Val.vTypeError, false⟩ ∧
    updateFields true (some throwingHook) [("req", Val.vObj 1)] Val.vUndefined =
      .ok ([("req", Val.vObj 1)], [⟨Level.error, Body.err (Val.vObj 7)⟩]) :=
  ⟨rfl, rfl⟩

/-- Claim C4: the hook runner returns the data unchanged when the hook
is absent; a truthy returned value replaces the data entirely; a falsy
or missing return keeps the data as mutated in place by the hook. -/
theorem hookRunner_replacement_semantics (hl : Bool) (d : Fields) (e : Val) :
    updateFields hl none d e = .ok (d, []) ∧
    (∀ (h : Hook) (m repl : Fields), h.run d (argOf e) = .ret m (some repl) →
      updateFields hl (some h) d e = .ok (repl, [])) ∧
    (∀ (h : Hook) (m : Fields), h.run d (argOf e) = .ret m none →
      updateFields hl (some h) d e = .ok (m, [])) := by
  refine ⟨rfl, ?_, ?_⟩
  · intro h m repl hr
    simp only [updateFields, hr]
  · intro h m hr
    simp only [updateFields, hr]

/-- A hook that ignores its input and returns a fresh object
(the repository test's `updateLogFields` returning a new map). -/
def replHook : Hook := ⟨fun _ _ => .ret [] (some [("a", Val.vNum 1)])⟩

/-- Witness for C4 at concrete inputs: a replacing hook and a mutating
hook, both on empty data. -/
theorem hookRunner_replacement_semantics_witness :
    updateFields true (some replHook) [] Val.vUndefined = .ok ([("a", Val.vNum 1)], []) ∧
    updateFields true (some (mutHook [("b", Val.vNum 2)] [])) [] Val.vUndefined =
      .ok ([("b", Val.vNum 2)], []) :=
  ⟨(hookRunner_replacement_semantics true [] Val.vUndefined).2.1 replHook []
      [("a", Val.vNum 1)] rfl,
   (hookRunner_replacement_semantics true [] Val.vUndefined).2.2
      (mutHook [("b", Val.vNum 2)] []) [("b", Val.vNum 2)] rfl⟩

/-- Claim C5: `time(label)` while an unfinished entry for `label`
exists (a stored, non-null, non-zero start time) emits one warn-level
record with the message
`"time() called for previously used label <label>"` and then
overwrites the entry with the current time.  `timeOp` is a total
function — `time` never throws. -/
theorem time_repeated_label_warns (st : TState) (label : String) (now t : Int)
    (h : getF st label = some (some t)) (ht : t ≠ 0) :
    timeOp st label now =
      (setF st label (some now),
       [⟨Level.warn, Body.msg ("time() called for previously used label " ++ label)⟩]) := by
  simp [timeOp, entryTruthy, h, bne_iff_ne, ht]

/-- Witness for C5: a second `time('foo')` over an open entry. -/
theorem time_repeated_label_warns_witness :
    timeOp [("foo", some 5)] "foo" 9 =
      ([("foo", some 9)],
       [⟨Level.warn, Body.msg ("time() called for previously used label " ++ "foo")⟩]) :=
  time_repeated_label_warns [("foo", some 5)] "foo" 9 5 rfl (by decide)

/-- Claim C6: `timeEnd(label)` with no matching unfinished entry
(absent, nulled by a previous `timeEnd`, or falsy) emits one warn-level
record with the message
`"timeEnd() called without time() for label <label>"` and returns
without emitting a duration record or touching the table; `timeEndOp`
is a total function — `timeEnd` never throws. -/
theorem timeEnd_without_time_warns (o : TimeOpts) (st : TState) (label : String)
    (now : Int) (h : entryTruthy (getF st label) = false) :
    timeEndOp o st label now =
      (st, [⟨Level.warn, Body.msg ("timeEnd() called without time() for label " ++ label)⟩]) := by
  rcases hget : getF st label with _ | ⟨_ | t⟩
  · simp [timeEndOp, hget]
  · simp [timeEndOp, hget]
  · rw [hget] at h
    simp only [entryTruthy, bne_iff_ne, ne_eq, decide_not] at h
    have ht : t = 0 := by
      by_contra hne
      simp [hne] at h
    simp [timeEndOp, hget, ht]

/-- Witness for C6: `timeEnd('blam')` with no prior `time('blam')`. -/
theorem timeEnd_without_time_warns_witness :
    timeEndOp ⟨none, none⟩ [] "blam" 3 =
      ([], [⟨Level.warn, Body.msg ("timeEnd() called without time() for label " ++ "blam")⟩]) :=
  timeEnd_without_time_warns ⟨none, none⟩ [] "blam" 3 rfl

/-- Claim C7: `timeEnd(label)` with a matching entry computes
`duration = now - start`, removes the entry (the source stores `null`,
which every later truthiness test reads exactly like an absent key),
builds `{label, duration, msg: "<label>: <duration>ms"}`, runs the
enrichment hook with replacement semantics, and emits exactly one
record at the configured level, `trace` when `logLevel` was not given.
The last two conjuncts state the observable effect of the removal: a
subsequent `time(label)` emits no warning and the entry is falsy, so a
subsequent `timeEnd(label)` takes the no-entry warning path. -/
theorem timeEnd_matching_entry_emits (o : TimeOpts) (st : TState) (label : String)
    (now t : Int) (h : getF st label = some (some t)) (ht : t ≠ 0)
    (hh : NonThrowingO o.updateLogFields) :
    timeEndOp o st label now =
      (setF st label none,
       [⟨o.level, Body.fields
          (applyHookO o.updateLogFields
            [("label", Val.vStr label), ("duration", Val.vNum (now - t)),
             ("msg", Val.vStr (label ++ ": " ++ toString (now - t) ++ "ms"))] none) none⟩]) ∧
    entryTruthy (getF (setF st label none) label) = false ∧
    (∀ n2 : Int, (timeOp (setF st label none) label n2).2 = []) ∧
    TimeOpts.level ⟨none, o.updateLogFields⟩ = Level.trace := by
  have hset : getF (setF st label (none : Option Int)) label = some none := by
    rw [getF_setF, if_pos rfl]
  refine ⟨?_, ?_, ?_, rfl⟩
  · simp [timeEndOp, h, ht, updateFieldsOk_nonThrowing _ _ _ hh, argOf, Val.truthy]
  · rw [hset]
    rfl
  · intro n2
    simp [timeOp, hset, entryTruthy]

/-- Witness for C7: `time('foo')` at 5 then `timeEnd('foo')` at 9 with
no hook and no configured level. -/
theorem timeEnd_matching_entry_emits_witness :
    timeEndOp ⟨none, none⟩ [("foo", some 5)] "foo" 9 =
      ([("foo", none)],
       [⟨Level.trace, Body.fields
          [("label", Val.vStr "foo"), ("duration", Val.vNum (9 - 5)),
           ("msg", Val.vStr ("foo" ++ ": " ++ toString ((9 : Int) - 5) ++ "ms"))] none⟩]) :=
  (timeEnd_matching_entry_emits ⟨none, none⟩ [("foo", some 5)] "foo" 9 5 rfl
    (by decide) trivial).1

/-- Claim C9: the completion record's duration field is the clock
reading at the transport-finish callback minus the start timestamp
taken before the handler chain ran, and is non-negative.  The per-
request timestamps are monotonic milliseconds (Date.getTime under a
monotone clock), hence the hypothesis `t0 ≤ t1`.  Stated for a
`requestLogger` with no enrichment hooks, so the emitted completion
record carries the field unmodified, for any configured duration field
name and any `levelFn`. -/
theorem duration_nonneg (ctx : ReqCtx) (thl : Bool) (t0 t1 : Int)
    (df : Option String) (lf : Option (Int → Val → Level))
    (handler : Except Val Unit) (h : t0 ≤ t1) :
    recField
        (compRecFields (requestLoggerRun ⟨none, none, none, df, lf⟩ thl ctx handler t0 t1))
        (Opts.durField ⟨none, none, none, df, lf⟩) = some (Val.vNum (t1 - t0)) ∧
    0 ≤ t1 - t0 := by
  constructor
  · cases handler with
    | ok u =>
      simp [requestLoggerRun, requestPhaseData, updateFields, onResponseFinished,
        updateFieldsOk, compRecFields, recField, List.findSome?, getF_setF]
    | error e =>
      simp [requestLoggerRun, requestPhaseData, updateFields, onResponseFinished,
        updateFieldsOk, compRecFields, recField, List.findSome?, getF_setF]
  · exact sub_nonneg.mpr h

/-- Witness for C9: a plain request whose handler ran from time 3 to
time 7. -/
theorem duration_nonneg_witness :
    recField (compRecFields (requestLoggerRun optsPlain true ctxDemo (.ok ()) 3 7))
        "duration" = some (Val.vNum (7 - 3)) ∧
    0 ≤ (7 : Int) - 3 :=
  duration_nonneg ctxDemo true 3 7 none none (.ok ()) (by decide)

theorem updateFieldsOk_none (d : Fields) (e : Val) :
    updateFieldsOk none d e = (d, []) := rfl

theorem updateFields_err_congr (hl : Bool) (f : Option Hook) (d : Fields) (e e' : Val)
    (h : argOf e = argOf e') :
    updateFields hl f d e = updateFields hl f d e' := by
  unfold updateFields
  rw [h]

theorem updateFieldsOk_err_congr (f : Option Hook) (d : Fields) (e e' : Val)
    (h : argOf e = argOf e') :
    updateFieldsOk f d e = updateFieldsOk f d e' := by
  unfold updateFieldsOk
  rw [updateFields_err_congr true f d e e' h]

@[simp] theorem truthy_vUndefined : Val.vUndefined.truthy = false := rfl

theorem onResponseFinished_falsy (o : Opts) (ctx : ReqCtx) (v : Val) (t0 t1 : Int)
    (hv : v.truthy = false) (hlf : o.levelFn = none) :
    onResponseFinished o ctx v t0 t1 = onResponseFinished o ctx Val.vUndefined t0 t1 := by
  have ha : argOf v = argOf Val.vUndefined := by
    simp [argOf, hv]
  simp only [onResponseFinished, hv, truthy_vUndefined, Bool.false_eq_true, if_false]
  rw [updateFieldsOk_err_congr _ _ _ _ ha]
  simp [levelOf, hlf]

/-- Claim C10: a falsy thrown value (`0`, `''`, `false`, `null`,
`undefined`) from the handler chain is treated as no error at every
point that tests it — `if (err)` before the rethrow, before attaching
`responseData.err`, and inside the hook runner's arity choice — so the
whole observable run equals the run of a normally returning handler
(with the default `levelFn`, the only consumer that receives `err`
unconditionally): nothing is attached to the completion record's `err`
field, the response hook is called without an error argument, and
nothing is rethrown. -/
theorem falsy_throw_treated_as_no_error (o : Opts) (thl : Bool) (ctx : ReqCtx)
    (t0 t1 : Int) (v : Val) (hv : v.truthy = false) (hlf : o.levelFn = none) :
    requestLoggerRun o thl ctx (.error v) t0 t1 =
      requestLoggerRun o thl ctx (.ok ()) t0 t1 := by
  unfold requestLoggerRun
  cases requestPhaseData o thl ctx with
  | error e => rfl
  | ok p =>
    simp only [onResponseFinished_falsy o ctx v t0 t1 hv hlf, hv, truthy_vUndefined,
      Bool.false_eq_true, if_false]

/-- Witness for C10: a handler that throws `0` against one that
returns, on a plain `requestLogger`. -/
theorem falsy_throw_treated_as_no_error_witness :
    requestLoggerRun optsPlain true ctxDemo (.error (Val.vNum 0)) 0 1 =
      requestLoggerRun optsPlain true ctxDemo (.ok ()) 0 1 :=
  falsy_throw_treated_as_no_error optsPlain true ctxDemo 0 1 (Val.vNum 0) rfl rfl

/-- Counterexample to claim C2 as stated: `requestLogger` does not
capture, embed or rethrow every thrown value.  A handler that throws
the falsy value `0` (`throw 0` is legal JavaScript) leaves `err` falsy,
so `if (err) throw err` does not rethrow — the middleware returns
normally and the completion record carries no `err` field.  The thrown
error is swallowed, contradicting "the error is never swallowed". -/
theorem falsy_throw_swallowed_cex :
    (requestLoggerRun optsPlain true ctxDemo (.error (Val.vNum 0)) 0 1).outcome =
      .ok () ∧
    recField
      (compRecFields (requestLoggerRun optsPlain true ctxDemo (.error (Val.vNum 0)) 0 1))
      "err" = none :=
  ⟨rfl, rfl⟩

/-- Claim C2 as amended: for every request whose downstream handler
chain throws a truthy value, `requestLogger` captures it, stores it in
the completion record data's `err` field before the response hooks run,
passes it as the error argument to the response-specific hook (whose
result — replacement semantics — becomes the completion record's
fields), and rethrows the very same value to the caller; the rethrow
decision (`if (err) throw err`) is taken after the `onFinished`
registration and does not depend on when the finish callback fires, so
the error is never swallowed.  Stated for a `requestLogger` whose only
hook is a non-throwing response hook and the default duration field. -/
theorem handler_error_rethrown_and_embedded (ctx : ReqCtx) (thl : Bool) (t0 t1 : Int)
    (lf : Option (Int → Val → Level)) (e : Val) (p : Hook)
    (he : e.truthy = true) (hp : NonThrowingO (some p)) :
    (requestLoggerRun ⟨none, none, some p, none, lf⟩ thl ctx (.error e) t0 t1).outcome =
      .error e ∧
    Event.registered ∈
      (requestLoggerRun ⟨none, none, some p, none, lf⟩ thl ctx (.error e) t0 t1).trace ∧
    getF (setF (setF [("req", ctx.req), ("res", ctx.res)] "err" e) "duration"
        (Val.vNum (t1 - t0))) "err" = some e ∧
    compRecFields (requestLoggerRun ⟨none, none, some p, none, lf⟩ thl ctx (.error e) t0 t1) =
      some (applyHookO (some p)
        (setF (setF [("req", ctx.req), ("res", ctx.res)] "err" e) "duration"
          (Val.vNum (t1 - t0)))
        (some e)) := by
  refine ⟨?_, ?_, ?_, ?_⟩
  · simp [requestLoggerRun, requestPhaseData, updateFields, he]
  · simp [requestLoggerRun, requestPhaseData, updateFields]
  · rw [getF_setF, if_neg (by decide), getF_setF, if_pos rfl]
  · simp [requestLoggerRun, requestPhaseData, updateFields, onResponseFinished,
      compRecFields, List.findSome?, updateFieldsOk_nonThrowing _ _ _ hp,
      updateFieldsOk_none, argOf, he, Opts.durField]

/-- Witness for the amended C2: a handler throwing an error object,
with the test suite's `error_handled` response hook. -/
theorem handler_error_rethrown_and_embedded_witness :
    (requestLoggerRun
        ⟨none, none, some (mutHook [("error_handled", Val.vBool true)] []), none, none⟩
        true ctxDemo (.error (Val.vObj 5)) 0 1).outcome = .error (Val.vObj 5) ∧
    getF (setF (setF [("req", ctxDemo.req), ("res", ctxDemo.res)] "err" (Val.vObj 5))
        "duration" (Val.vNum (1 - 0))) "err" = some (Val.vObj 5) := by
  have h := handler_error_rethrown_and_embedded ctxDemo true 0 1 none (Val.vObj 5)
    (mutHook [("error_handled", Val.vBool true)] []) rfl
    (mutHook_nonThrowing [("error_handled", Val.vBool true)] [])
  exact ⟨h.1, h.2.2.1⟩

theorem requestPhaseData_nonThrowing (o : Opts) (thl : Bool) (ctx : ReqCtx)
    (hg : NonThrowingO o.updateLogFields) (hr : NonThrowingO o.updateRequestLogFields) :
    requestPhaseData o thl ctx =
      .ok (applyHookO o.updateRequestLogFields
            (applyHookO o.updateLogFields [("req", ctx.req)] none) none, []) := by
  unfold requestPhaseData
  rw [updateFields_nonThrowing thl o.updateLogFields [("req", ctx.req)] Val.vUndefined hg]
  dsimp only
  rw [updateFields_nonThrowing thl o.updateRequestLogFields _ Val.vUndefined hr]
  dsimp only [argOf, truthy_vUndefined]
  rfl

theorem countComp_shape (rr cr : Record) (errs : List Record) :
    countComp (Event.reqRec rr :: Event.handlerRan :: Event.registered :: Event.finished ::
      (errs.map Event.hookErr ++ [Event.compRec cr])) = 1 := by
  induction errs with
  | nil => rfl
  | cons a t ih => simp [countComp, List.filter] at ih ⊢

/-- Claim C3: with the request-phase hooks completing normally (see C1
for the hook-throw case), the trace of every request is: the request
record (emitted synchronously, first), then the handler chain
finishing, then the registration of the completion callback, then the
transport finish signal, and only then — after all of these — any
response-phase hook-error records followed by exactly one completion
record.  In particular exactly one completion record is emitted per
request and the start record strictly precedes it, because the
callback is registered only after the start record has been written. -/
theorem completion_record_ordering (o : Opts) (thl : Bool) (ctx : ReqCtx)
    (handler : Except Val Unit) (t0 t1 : Int)
    (hg : NonThrowingO o.updateLogFields) (hr : NonThrowingO o.updateRequestLogFields) :
    ∃ (rr : Record) (errs : List Record) (cr : Record),
      (requestLoggerRun o thl ctx handler t0 t1).trace =
        Event.reqRec rr :: Event.handlerRan :: Event.registered :: Event.finished ::
          (errs.map Event.hookErr ++ [Event.compRec cr]) ∧
      countComp (requestLoggerRun o thl ctx handler t0 t1).trace = 1 := by
  cases handler with
  | ok u =>
    unfold requestLoggerRun
    rw [requestPhaseData_nonThrowing o thl ctx hg hr]
    dsimp only
    exact ⟨⟨Level.info, Body.fields
        (applyHookO o.updateRequestLogFields
          (applyHookO o.updateLogFields [("req", ctx.req)] none) none)
        (some (fmtRequest ctx))⟩,
      (onResponseFinished o ctx Val.vUndefined t0 t1).1,
      (onResponseFinished o ctx Val.vUndefined t0 t1).2,
      rfl, countComp_shape _ _ _⟩
  | error e =>
    unfold requestLoggerRun
    rw [requestPhaseData_nonThrowing o thl ctx hg hr]
    dsimp only
    exact ⟨⟨Level.info, Body.fields
        (applyHookO o.updateRequestLogFields
          (applyHookO o.updateLogFields [("req", ctx.req)] none) none)
        (some (fmtRequest ctx))⟩,
      (onResponseFinished o ctx e t0 t1).1,
      (onResponseFinished o ctx e t0 t1).2,
      rfl, countComp_shape _ _ _⟩

/-- Witness for C3: a plain request with no hooks. -/
theorem completion_record_ordering_witness :
    ∃ (rr : Record) (errs : List Record) (cr : Record),
      (requestLoggerRun optsPlain true ctxDemo (.ok ()) 0 1).trace =
        Event.reqRec rr :: Event.handlerRan :: Event.registered :: Event.finished ::
          (errs.map Event.hookErr ++ [Event.compRec cr]) ∧
      countComp (requestLoggerRun optsPlain true ctxDemo (.ok ()) 0 1).trace = 1 :=
  completion_record_ordering optsPlain true ctxDemo (.ok ()) 0 1 trivial trivial

theorem updateFieldsOk_mutHook (sets : List (String × Val)) (dels : List String)
    (d : Fields) (e : Val) :
    updateFieldsOk (some (mutHook sets dels)) d e = (delAll (setAll d sets) dels, []) := by
  simp [updateFieldsOk, updateFields_mutHook]

/-- The hook configuration of the repository's own request-logger test,
narrowed to the `baz1` interaction: the global hook sets `baz1`, the
request-specific hook deletes it. -/
def optsC8cex : Opts :=
  ⟨some (mutHook [("baz1", Val.vStr "fizz")] []),
   some (mutHook [] ["baz1"]), none, none, none⟩

/-- Counterexample to claim C8 as stated, at the repository's own test
configuration: `baz1` is set by the global hook yet absent from the
request record (the request-specific hook deleted it), refuting "every
field set by the global hook appears in both records"; and `baz1`,
deleted by the request-specific hook, reappears in the completion
record (the global hook runs again in the response phase and re-sets
it), refuting "every field deleted by the request-specific hook does
not reappear in the completion record".  The repository's test asserts
exactly these two record values. -/
theorem hook_composition_cex :
    recField (reqRecFields (requestLoggerRun optsC8cex true ctxDemo (.ok ()) 0 1))
      "baz1" = none ∧
    (reqRecFields (requestLoggerRun optsC8cex true ctxDemo (.ok ()) 0 1)).isSome = true ∧
    recField (compRecFields (requestLoggerRun optsC8cex true ctxDemo (.ok ()) 0 1))
      "baz1" = some (Val.vStr "fizz") :=
  ⟨rfl, rfl, rfl⟩

/-- Claim C8 as amended, for deterministic mutate-in-place hooks
(`mutHook sets dels`, assignments then deletions, mirroring the test
suite's hooks): (1) a field set by the global hook appears in both the
request and the completion record provided no hook deletes it (the
global hook's own deletions, the request hook's for the request record,
the response hook's for the completion record); (2) a field set only by
the request-specific hook — not set by the global or response hooks and
not a base field (`req`, `res`, the duration field; the handler returns
normally, so no `err` base field exists) — is absent from the
completion record; (3) a field deleted by the request-specific hook is
absent from the request record, and is absent from the completion
record too unless the response-phase chain (base fields, global hook or
response hook) sets it — the deletion itself does not persist into the
completion record, whose data is rebuilt from scratch.  The first two
conjuncts identify the two records' field maps. -/
theorem hook_composition (Sg Sr Sp : List (String × Val)) (Dg Dr Dp : List String)
    (df : Option String) (lf : Option (Int → Val → Level)) (ctx : ReqCtx)
    (thl : Bool) (t0 t1 : Int) :
    let o : Opts := ⟨some (mutHook Sg Dg), some (mutHook Sr Dr),
      some (mutHook Sp Dp), df, lf⟩
    let run := requestLoggerRun o thl ctx (.ok ()) t0 t1
    let reqF := delAll (setAll (delAll (setAll [("req", ctx.req)] Sg) Dg) Sr) Dr
    let base := setF [("req", ctx.req), ("res", ctx.res)] o.durField (Val.vNum (t1 - t0))
    let compF := delAll (setAll (delAll (setAll base Sg) Dg) Sp) Dp
    reqRecFields run = some reqF ∧
    compRecFields run = some compF ∧
    (∀ k : String, (getF Sg.reverse k).isSome = true → k ∉ Dg → k ∉ Dr → k ∉ Dp →
      (getF reqF k).isSome = true ∧ (getF compF k).isSome = true) ∧
    (∀ (k : String) (v : Val), getF Sr.reverse k = some v →
      getF Sg.reverse k = none → getF Sp.reverse k = none →
      k ≠ "req" → k ≠ "res" → k ≠ o.durField →
      getF compF k = none) ∧
    (∀ k : String, k ∈ Dr →
      getF reqF k = none ∧
      (getF Sg.reverse k = none → getF Sp.reverse k = none →
        k ≠ "req" → k ≠ "res" → k ≠ o.durField →
        getF compF k = none)) := by
  dsimp only
  refine ⟨?_, ?_, ?_, ?_, ?_⟩
  · simp [requestLoggerRun, requestPhaseData, updateFields_mutHook,
      reqRecFields, List.findSome?]
  · simp [requestLoggerRun, requestPhaseData, updateFields_mutHook,
      onResponseFinished, updateFieldsOk_mutHook, compRecFields,
      List.findSome?, truthy_vUndefined]
  · intro k hset hg hr hp
    obtain ⟨v, hv⟩ := Option.isSome_iff_exists.mp hset
    constructor
    · rw [getF_delAll, if_neg hr, getF_setAll, getF_delAll, if_neg hg, getF_setAll, hv]
      cases getF Sr.reverse k <;> simp
    · rw [getF_delAll, if_neg hp, getF_setAll, getF_delAll, if_neg hg, getF_setAll, hv]
      cases getF Sp.reverse k <;> simp
  · intro k v hsr hg hp h1 h2 h3
    rw [getF_delAll, getF_setAll, hp, getF_delAll, getF_setAll, hg, getF_setF, if_neg h3]
    simp [getF, h1, h2]
  · intro k hk
    constructor
    · rw [getF_delAll, if_pos hk]
    · intro hg hp h1 h2 h3
      rw [getF_delAll, getF_setAll, hp, getF_delAll, getF_setAll, hg, getF_setF, if_neg h3]
      simp [getF, h1, h2]

/-- Witness for the amended C8 at the test suite's configuration:
`foo`, set by the global hook and deleted by nobody, is present in both
records; `addedToReq`, set only by the request hook, is absent from the
completion record; `baz1`, deleted by the request hook, is absent from
the request record. -/
theorem hook_composition_witness :
    (getF (delAll (setAll (delAll (setAll [("req", ctxDemo.req)]
        [("foo", Val.vStr "bar"), ("baz1", Val.vStr "fizz")]) [])
        [("addedToReq", Val.vStr "hello")]) ["baz1"]) "foo").isSome = true ∧
    getF (delAll (setAll (delAll (setAll
        (setF [("req", ctxDemo.req), ("res", ctxDemo.res)]
          (Opts.durField ⟨some (mutHook [("foo", Val.vStr "bar"), ("baz1", Val.vStr "fizz")] []),
            some (mutHook [("addedToReq", Val.vStr "hello")] ["baz1"]),
            some (mutHook [("addedToRes", Val.vStr "world")] []), none, none⟩)
          (Val.vNum (1 - 0)))
        [("foo", Val.vStr "bar"), ("baz1", Val.vStr "fizz")]) [])
        [("addedToRes", Val.vStr "world")]) []) "addedToReq" = none ∧
    getF (delAll (setAll (delAll (setAll [("req", ctxDemo.req)]
        [("foo", Val.vStr "bar"), ("baz1", Val.vStr "fizz")]) [])
        [("addedToReq", Val.vStr "hello")]) ["baz1"]) "baz1" = none := by
  have h := hook_composition
    [("foo", Val.vStr "bar"), ("baz1", Val.vStr "fizz")]
    [("addedToReq", Val.vStr "hello")]
    [("addedToRes", Val.vStr "world")]
    [] ["baz1"] []
    none none ctxDemo true 0 1
  exact ⟨(h.2.2.1 "foo" (by decide) (by decide) (by decide) (by decide)).1,
    h.2.2.2.1 "addedToReq" (Val.vStr "hello") (by decide) (by decide) (by decide)
      (by decide) (by decide) (by decide),
    (h.2.2.2.2 "baz1" (by decide)).1⟩
